import Mathlib

/-!
Verification of the MyLang compiler (lexer, parser, C code generator)
against its natural-language specification.  The definitions below are a
shallow embedding of the Python sources `compiler/lexer.py`,
`compiler/parser.py` and `compiler/codegen_c.py`.
-/

namespace MyLang

/-! ### AST (ast_nodes.py)

Literal values: the Python `Literal.value` field holds a Python `str`,
`float`, `bool` or `int`.  A float literal is modelled by the decimal text
it is rendered as (`str(value)` in the generator, `float(tok)` in the
parser); no claim depends on float arithmetic. -/

inductive PyVal where
  | vstr (s : String)
  | vfloat (r : String)
  | vbool (b : Bool)
  | vint (n : Nat)
deriving Repr

inductive Expr where
  | Literal (value : PyVal)
  | VarRef (name : String)
  | AssignExpr (name : String) (value : Expr)
  | BinaryExpr (left : Expr) (op : String) (right : Expr)
  | UnaryExpr (op : String) (expr : Expr)
  | FuncCall (name : String) (args : List Expr)
deriving Repr

/-- Statements.  `unknownStmt` models a value of some `Stmt` subclass
outside the variants known to the code generator: Python's class
hierarchy is open, and `gen_stmt` tests `isinstance` against each known
variant in turn, so such a node reaches the end of `gen_stmt` and is
skipped without any output or error. -/
inductive Stmt where
  | VarDecl (vtype : String) (names : List (String × Option Expr))
  | ExprStmt (expr : Expr)
  | IfStmt (cond : Expr) (thenBlock : List Stmt) (elseBlock : Option (List Stmt))
  | WhileStmt (cond : Expr) (body : List Stmt)
  | ForStmt (init : Option Stmt) (cond : Option Expr) (post : Option Expr) (body : List Stmt)
  | ReturnStmt (expr : Option Expr)
  | unknownStmt
deriving Repr

structure FuncDecl where
  return_type : String
  name : String
  params : List (String × String)
  body : List Stmt
deriving Repr

structure Program where
  funcs : List FuncDecl
deriving Repr

/-! ### C code generator (codegen_c.py) -/

/-- `map_type`: map language types to C types, defaulting to `int`. -/
def mapType (typ : String) : String :=
  if typ = "int" then "int"
  else if typ = "float" then "double"
  else if typ = "string" then "char*"
  else if typ = "bool" then "bool"
  else if typ = "void" then "void"
  else "int"

/-- Indentation prefix emitted by `emit`: four spaces per level. -/
def indentStr (n : Nat) : String := String.join (List.replicate n "    ")

/-- C escaping of a string literal (gen_expr, Literal str case):
the three successive `str.replace` calls of the source. -/
def escapeC (s : String) : String :=
  ((s.replace "\\" "\\\\").replace "\"" "\\\"").replace "\n" "\\n"

mutual

/-- `gen_expr`: produce the C expression string for an AST expression. -/
def genExpr : Expr → String
  | .Literal v =>
    match v with
    | .vstr s => "\"" ++ escapeC s ++ "\""
    | .vbool b => if b then "true" else "false"
    | .vint n => toString n
    | .vfloat r => r
  | .VarRef n => n
  | .AssignExpr n v => n ++ " = " ++ genExpr v
  | .BinaryExpr l op r => "(" ++ genExpr l ++ " " ++ op ++ " " ++ genExpr r ++ ")"
  | .UnaryExpr op e => "(" ++ op ++ genExpr e ++ ")"
  | .FuncCall n args =>
    if n = "print" then
      match args with
      | [] => "printf(\"\\n\")"
      | arg :: _ =>
        let argStr := genExpr arg
        match arg with
        | .Literal (.vstr _) => "printf(\"%s\\n\", " ++ argStr ++ ")"
        | .Literal (.vfloat _) => "printf(\"%f\\n\", " ++ argStr ++ ")"
        | .Literal (.vbool _) => "printf(\"%s\\n\", " ++ argStr ++ " ? \"true\" : \"false\")"
        | _ => "printf(\"%d\\n\", " ++ argStr ++ ")"
    else if n = "input" then "getchar()"
    else n ++ "(" ++ String.intercalate ", " (genExprList args) ++ ")"

/-- `", ".join(self.gen_expr(a) for a in e.args)`: the argument list. -/
def genExprList : List Expr → List String
  | [] => []
  | e :: es => genExpr e :: genExprList es

end

mutual

/-- `gen_stmt`: emit the C lines for one statement at indentation `ind`. -/
def genStmt : Nat → Stmt → List String
  | ind, .VarDecl vt names =>
    names.map (fun nm =>
      match nm.2 with
      | none => indentStr ind ++ mapType vt ++ " " ++ nm.1 ++ ";"
      | some e => indentStr ind ++ mapType vt ++ " " ++ nm.1 ++ " = " ++ genExpr e ++ ";")
  | ind, .ExprStmt e => [indentStr ind ++ genExpr e ++ ";"]
  | ind, .IfStmt c tb eb =>
    [indentStr ind ++ "if (" ++ genExpr c ++ ") \x7b"]
    ++ genStmtList (ind + 1) tb
    ++ (match eb with
        | none => []
        | some els => [indentStr ind ++ "\x7d else \x7b"] ++ genStmtList (ind + 1) els)
    ++ [indentStr ind ++ "\x7d"]
  | ind, .WhileStmt c b =>
    [indentStr ind ++ "while (" ++ genExpr c ++ ") \x7b"]
    ++ genStmtList (ind + 1) b ++ [indentStr ind ++ "\x7d"]
  | ind, .ForStmt init cond post body =>
    let declLines :=
      match init with
      | some (.VarDecl vt names) =>
        names.map (fun nm => indentStr ind ++ mapType vt ++ " " ++ nm.1 ++ ";")
      | _ => []
    let assigns :=
      match init with
      | some (.VarDecl _ names) =>
        names.filterMap (fun nm => nm.2.map (fun e => nm.1 ++ " = " ++ genExpr e))
      | _ => []
    let initStr :=
      if assigns ≠ [] then String.intercalate "; " assigns
      else match init with
           | some (.ExprStmt e) => genExpr e
           | _ => ""
    let condStr := match cond with | some c => genExpr c | none => "1"
    let postStr := match post with | some e => genExpr e | none => ""
    declLines
    ++ [indentStr ind ++ "for (" ++ initStr ++ "; " ++ condStr ++ "; " ++ postStr ++ ") \x7b"]
    ++ genStmtList (ind + 1) body ++ [indentStr ind ++ "\x7d"]
  | ind, .ReturnStmt oe =>
    match oe with
    | none => [indentStr ind ++ "return;"]
    | some e => [indentStr ind ++ "return " ++ genExpr e ++ ";"]
  | _, .unknownStmt => []

def genStmtList : Nat → List Stmt → List String
  | _, [] => []
  | ind, s :: rest => genStmt ind s ++ genStmtList ind rest

end

/-- The `isinstance(s, ReturnStmt)` test of `gen_function`. -/
def isReturnStmt : Stmt → Bool
  | .ReturnStmt _ => true
  | _ => false

/-- Parameter list rendering: `void` marker when the list is empty. -/
def paramsRender (ps : List (String × String)) : String :=
  match ps with
  | [] => "void"
  | _ => String.intercalate ", " (ps.map (fun p => mapType p.1 ++ " " ++ p.2))

/-- Header line of a function definition. -/
def funcHeader (f : FuncDecl) : String :=
  mapType f.return_type ++ " " ++ f.name ++ "(" ++ paramsRender f.params ++ ") \x7b"

/-- One forward declaration line. -/
def fwdDecl (f : FuncDecl) : String :=
  mapType f.return_type ++ " " ++ f.name ++ "(" ++ paramsRender f.params ++ ");"

/-- `gen_function`: header, body at indent 1, possible fallback return,
closing brace. -/
def genFunction (f : FuncDecl) : List String :=
  funcHeader f :: (genStmtList 1 f.body
    ++ (if f.return_type ≠ "void" ∧ f.body.any isReturnStmt = false
        then [indentStr 1 ++ "return 0;"] else [])
    ++ ["\x7d"])

/-- The per-function part of `generate`: each function definition
followed by a blank line. -/
def genFuncsLines : List FuncDecl → List String
  | [] => []
  | f :: fs => genFunction f ++ [""] ++ genFuncsLines fs

/-- `generate`: the full list of emitted lines. -/
def generateLines (p : Program) : List String :=
  ["#include <stdio.h>", "#include <stdlib.h>", "#include <string.h>",
   "#include <stdbool.h>", ""]
  ++ p.funcs.map fwdDecl ++ [""]
  ++ genFuncsLines p.funcs

/-- `generate` returns the lines joined with newlines. -/
def generate (p : Program) : String := String.intercalate "\n" (generateLines p)

/-- The `isinstance(arg, Literal)` test used by the print lowering. -/
def isLiteral : Expr → Bool
  | .Literal _ => true
  | _ => false

/-! ### The generator on the open class hierarchy (codegen_c.py)

Python's `Expr`/`Stmt` hierarchies are open: any node of the tree may be
a subclass the generator does not recognize.  `ExprU`/`StmtU` mirror
`Expr`/`Stmt` and add an `unknown` constructor at both levels.  On this
open hierarchy the generator is re-translated with Python's dynamic
behaviour kept: `gen_expr` falls through every `isinstance` test on an
unrecognized expression node and returns `None` (`Option.none` here); a
`None` interpolated into an f-string renders as the text `None`
(`pyfmt`); `None + ";"` in the expression-statement path and a `None`
among the strings joined for a call's argument list raise `TypeError`
(`CGErr.typeErr`, propagated through `Except`).  The bridge theorem
`generateU_embed` shows the closed-variant generator above is exactly
the restriction of this one to programs without unrecognized expression
nodes. -/

inductive ExprU where
  | Literal (value : PyVal)
  | VarRef (name : String)
  | AssignExpr (name : String) (value : ExprU)
  | BinaryExpr (left : ExprU) (op : String) (right : ExprU)
  | UnaryExpr (op : String) (expr : ExprU)
  | FuncCall (name : String) (args : List ExprU)
  | unknownExpr
deriving Repr

inductive StmtU where
  | VarDecl (vtype : String) (names : List (String × Option ExprU))
  | ExprStmt (expr : ExprU)
  | IfStmt (cond : ExprU) (thenBlock : List StmtU) (elseBlock : Option (List StmtU))
  | WhileStmt (cond : ExprU) (body : List StmtU)
  | ForStmt (init : Option StmtU) (cond : Option ExprU) (post : Option ExprU) (body : List StmtU)
  | ReturnStmt (expr : Option ExprU)
  | unknownStmt
deriving Repr

structure FuncDeclU where
  return_type : String
  name : String
  params : List (String × String)
  body : List StmtU
deriving Repr

structure ProgramU where
  funcs : List FuncDeclU
deriving Repr

/-- The uncaught Python exceptions the generator can raise. -/
inductive CGErr where
  | typeErr
deriving Repr

/-- An f-string interpolation of a value that may be Python `None`. -/
def pyfmt : Option String → String
  | some s => s
  | none => "None"

mutual

/-- `gen_expr` on the open hierarchy: an unrecognized node falls through
every `isinstance` test and returns `None`. -/
def genExprU : ExprU → Except CGErr (Option String)
  | .Literal v =>
    .ok (some (match v with
      | .vstr s => "\"" ++ escapeC s ++ "\""
      | .vbool b => if b then "true" else "false"
      | .vint n => toString n
      | .vfloat r => r))
  | .VarRef n => .ok (some n)
  | .AssignExpr n v =>
    match genExprU v with
    | .error er => .error er
    | .ok val => .ok (some (n ++ " = " ++ pyfmt val))
  | .BinaryExpr l op r =>
    match genExprU l with
    | .error er => .error er
    | .ok lv =>
      match genExprU r with
      | .error er => .error er
      | .ok rv => .ok (some ("(" ++ pyfmt lv ++ " " ++ op ++ " " ++ pyfmt rv ++ ")"))
  | .UnaryExpr op e =>
    match genExprU e with
    | .error er => .error er
    | .ok v => .ok (some ("(" ++ op ++ pyfmt v ++ ")"))
  | .FuncCall n args =>
    if n = "print" then
      match args with
      | [] => .ok (some "printf(\"\\n\")")
      | arg :: _ =>
        match genExprU arg with
        | .error er => .error er
        | .ok argStr =>
          match arg with
          | .Literal (.vstr _) => .ok (some ("printf(\"%s\\n\", " ++ pyfmt argStr ++ ")"))
          | .Literal (.vfloat _) => .ok (some ("printf(\"%f\\n\", " ++ pyfmt argStr ++ ")"))
          | .Literal (.vbool _) =>
            .ok (some ("printf(\"%s\\n\", " ++ pyfmt argStr ++ " ? \"true\" : \"false\")"))
          | _ => .ok (some ("printf(\"%d\\n\", " ++ pyfmt argStr ++ ")"))
    else if n = "input" then .ok (some "getchar()")
    else
      match genExprListU args with
      | .error er => .error er
      | .ok vals =>
        if vals.any (fun o => o.isNone) then .error .typeErr
        else .ok (some (n ++ "(" ++ String.intercalate ", " (vals.map pyfmt) ++ ")"))
  | .unknownExpr => .ok none

/-- The values of `self.gen_expr(a) for a in e.args`: `str.join`
materializes them all (raises from `gen_expr` propagate), then raises
`TypeError` at the first `None` — modelled by the caller's check. -/
def genExprListU : List ExprU → Except CGErr (List (Option String))
  | [] => .ok []
  | e :: es =>
    match genExprU e with
    | .error er => .error er
    | .ok v =>
      match genExprListU es with
      | .error er => .error er
      | .ok vs => .ok (v :: vs)

end

/-- The declarator loop of the `VarDecl` case of `gen_stmt`: a `None`
initializer value is interpolated into the f-string as `None`. -/
def varDeclLinesU (ind : Nat) (ct : String) : List (String × Option ExprU) →
    Except CGErr (List String)
  | [] => .ok []
  | (n, none) :: rest =>
    match varDeclLinesU ind ct rest with
    | .error er => .error er
    | .ok ls => .ok ((indentStr ind ++ ct ++ " " ++ n ++ ";") :: ls)
  | (n, some e) :: rest =>
    match genExprU e with
    | .error er => .error er
    | .ok v =>
      match varDeclLinesU ind ct rest with
      | .error er => .error er
      | .ok ls => .ok ((indentStr ind ++ ct ++ " " ++ n ++ " = " ++ pyfmt v ++ ";") :: ls)

/-- The `init_vars` loop of the `ForStmt` case of `gen_stmt`. -/
def forAssignsU : List (String × Option ExprU) → Except CGErr (List String)
  | [] => .ok []
  | (_, none) :: rest => forAssignsU rest
  | (n, some e) :: rest =>
    match genExprU e with
    | .error er => .error er
    | .ok v =>
      match forAssignsU rest with
      | .error er => .error er
      | .ok ls => .ok ((n ++ " = " ++ pyfmt v) :: ls)

/-- `self.gen_expr(s.cond) if s.cond else "1"`. -/
def condStrU : Option ExprU → Except CGErr String
  | some c =>
    match genExprU c with
    | .error er => .error er
    | .ok v => .ok (pyfmt v)
  | none => .ok "1"

/-- `self.gen_expr(s.post) if s.post else ""`. -/
def postStrU : Option ExprU → Except CGErr String
  | some e =>
    match genExprU e with
    | .error er => .error er
    | .ok v => .ok (pyfmt v)
  | none => .ok ""

mutual

/-- `gen_stmt` on the open hierarchy.  The expression-statement path
concatenates the `gen_expr` result with `";"`, so a `None` there raises
`TypeError`; interpolated positions render `None` as text; an
unrecognized statement node falls through and emits nothing. -/
def genStmtU : Nat → StmtU → Except CGErr (List String)
  | ind, .VarDecl vt names => varDeclLinesU ind (mapType vt) names
  | ind, .ExprStmt e =>
    match genExprU e with
    | .error er => .error er
    | .ok none => .error .typeErr
    | .ok (some s) => .ok [indentStr ind ++ s ++ ";"]
  | ind, .IfStmt c tb eb =>
    match genExprU c with
    | .error er => .error er
    | .ok cv =>
      match genStmtListU (ind + 1) tb with
      | .error er => .error er
      | .ok tls =>
        match (match eb with
               | none => .ok []
               | some els =>
                 match genStmtListU (ind + 1) els with
                 | .error er => .error er
                 | .ok els' => .ok ([indentStr ind ++ "\x7d else \x7b"] ++ els')
               : Except CGErr (List String)) with
        | .error er => .error er
        | .ok emid =>
          .ok ([indentStr ind ++ "if (" ++ pyfmt cv ++ ") \x7b"] ++ tls ++ emid
               ++ [indentStr ind ++ "\x7d"])
  | ind, .WhileStmt c b =>
    match genExprU c with
    | .error er => .error er
    | .ok cv =>
      match genStmtListU (ind + 1) b with
      | .error er => .error er
      | .ok bls =>
        .ok ([indentStr ind ++ "while (" ++ pyfmt cv ++ ") \x7b"] ++ bls
             ++ [indentStr ind ++ "\x7d"])
  | ind, .ForStmt init cond post body =>
    match (match init with
           | some (.VarDecl _ names) => forAssignsU names
           | _ => .ok [] : Except CGErr (List String)) with
    | .error er => .error er
    | .ok assigns =>
      match (if assigns ≠ [] then .ok (String.intercalate "; " assigns)
             else match init with
                  | some (.ExprStmt e) =>
                    match genExprU e with
                    | .error er => .error er
                    | .ok v => .ok (pyfmt v)
                  | _ => .ok "" : Except CGErr String) with
      | .error er => .error er
      | .ok initStr =>
        match condStrU cond with
        | .error er => .error er
        | .ok condS =>
          match postStrU post with
          | .error er => .error er
          | .ok postS =>
            match genStmtListU (ind + 1) body with
            | .error er => .error er
            | .ok bls =>
              .ok ((match init with
                    | some (.VarDecl vt names) =>
                      names.map (fun nm => indentStr ind ++ mapType vt ++ " " ++ nm.1 ++ ";")
                    | _ => [])
                   ++ [indentStr ind ++ "for (" ++ initStr ++ "; " ++ condS ++ "; "
                       ++ postS ++ ") \x7b"]
                   ++ bls ++ [indentStr ind ++ "\x7d"])
  | ind, .ReturnStmt oe =>
    match oe with
    | none => .ok [indentStr ind ++ "return;"]
    | some e =>
      match genExprU e with
      | .error er => .error er
      | .ok v => .ok [indentStr ind ++ "return " ++ pyfmt v ++ ";"]
  | _, .unknownStmt => .ok []

def genStmtListU : Nat → List StmtU → Except CGErr (List String)
  | _, [] => .ok []
  | ind, s :: rest =>
    match genStmtU ind s with
    | .error er => .error er
    | .ok ls =>
      match genStmtListU ind rest with
      | .error er => .error er
      | .ok rls => .ok (ls ++ rls)

end

/-- `isinstance(s, ReturnStmt)` on the open hierarchy. -/
def isReturnStmtU : StmtU → Bool
  | .ReturnStmt _ => true
  | _ => false

/-- Header line of a function definition (open hierarchy). -/
def funcHeaderU (f : FuncDeclU) : String :=
  mapType f.return_type ++ " " ++ f.name ++ "(" ++ paramsRender f.params ++ ") \x7b"

/-- One forward declaration line (open hierarchy). -/
def fwdDeclU (f : FuncDeclU) : String :=
  mapType f.return_type ++ " " ++ f.name ++ "(" ++ paramsRender f.params ++ ");"

/-- `gen_function` on the open hierarchy. -/
def genFunctionU (f : FuncDeclU) : Except CGErr (List String) :=
  match genStmtListU 1 f.body with
  | .error er => .error er
  | .ok bls =>
    .ok (funcHeaderU f :: (bls
      ++ (if f.return_type ≠ "void" ∧ f.body.any isReturnStmtU = false
          then [indentStr 1 ++ "return 0;"] else [])
      ++ ["\x7d"]))

/-- The function-definitions part of `generate` (open hierarchy). -/
def genFuncsLinesU : List FuncDeclU → Except CGErr (List String)
  | [] => .ok []
  | f :: fs =>
    match genFunctionU f with
    | .error er => .error er
    | .ok fl =>
      match genFuncsLinesU fs with
      | .error er => .error er
      | .ok rest => .ok (fl ++ [""] ++ rest)

/-- `generate` on the open hierarchy: the emitted lines, or the raised
exception. -/
def generateLinesU (p : ProgramU) : Except CGErr (List String) :=
  match genFuncsLinesU p.funcs with
  | .error er => .error er
  | .ok fls =>
    .ok (["#include <stdio.h>", "#include <stdlib.h>", "#include <string.h>",
          "#include <stdbool.h>", ""]
         ++ p.funcs.map fwdDeclU ++ [""] ++ fls)

/-- `generate` on the open hierarchy. -/
def generateU (p : ProgramU) : Except CGErr String :=
  match generateLinesU p with
  | .error er => .error er
  | .ok ls => .ok (String.intercalate "\n" ls)

mutual

/-- A known-variant expression, viewed in the open hierarchy. -/
def embedExprU : Expr → ExprU
  | .Literal v => .Literal v
  | .VarRef n => .VarRef n
  | .AssignExpr n v => .AssignExpr n (embedExprU v)
  | .BinaryExpr l op r => .BinaryExpr (embedExprU l) op (embedExprU r)
  | .UnaryExpr op e => .UnaryExpr op (embedExprU e)
  | .FuncCall n args => .FuncCall n (embedExprListU args)

def embedExprListU : List Expr → List ExprU
  | [] => []
  | e :: es => embedExprU e :: embedExprListU es

end

mutual

/-- A statement with known-variant expressions, viewed in the open
hierarchy (`Stmt.unknownStmt` maps to `StmtU.unknownStmt`). -/
def embedStmtU : Stmt → StmtU
  | .VarDecl vt names => .VarDecl vt (names.map (fun nm => (nm.1, nm.2.map embedExprU)))
  | .ExprStmt e => .ExprStmt (embedExprU e)
  | .IfStmt c tb eb =>
    .IfStmt (embedExprU c) (embedStmtListU tb)
      (match eb with
       | none => none
       | some els => some (embedStmtListU els))
  | .WhileStmt c b => .WhileStmt (embedExprU c) (embedStmtListU b)
  | .ForStmt none cond post body =>
    .ForStmt none (cond.map embedExprU) (post.map embedExprU) (embedStmtListU body)
  | .ForStmt (some i) cond post body =>
    .ForStmt (some (embedStmtU i)) (cond.map embedExprU) (post.map embedExprU)
      (embedStmtListU body)
  | .ReturnStmt oe => .ReturnStmt (oe.map embedExprU)
  | .unknownStmt => .unknownStmt

def embedStmtListU : List Stmt → List StmtU
  | [] => []
  | s :: rest => embedStmtU s :: embedStmtListU rest

end

/-- A known-variant function, viewed in the open hierarchy. -/
def embedFuncU (f : FuncDecl) : FuncDeclU :=
  ⟨f.return_type, f.name, f.params, embedStmtListU f.body⟩

/-- A known-variant program, viewed in the open hierarchy. -/
def embedProgramU (p : Program) : ProgramU := ⟨p.funcs.map embedFuncU⟩

/-! ### Lexer (lexer.py)

The master regular expression tries the six rules COMMENT, WHITESPACE,
NUMBER, STRING, ID, OP in order at the current position; the first rule
that matches wins, each matching greedily.  Each rule is modelled by a
matcher returning the matched characters and the remaining input.
`\d` is modelled as the ASCII decimal digits. -/

/-- A token is a (type, text) pair. -/
def Token := String × String

/-- WHITESPACE character class. -/
def wsChar (c : Char) : Bool := c = ' ' ∨ c = '\t' ∨ c = '\r' ∨ c = '\n'

/-- COMMENT rule: two slashes then everything up to (excluding) a newline. -/
def matchComment : List Char → Option (List Char × List Char)
  | '/' :: '/' :: rest =>
    some ('/' :: '/' :: rest.takeWhile (fun c => c ≠ '\n'),
          rest.dropWhile (fun c => c ≠ '\n'))
  | _ => none

/-- WHITESPACE rule: one or more whitespace characters. -/
def matchWS (cs : List Char) : Option (List Char × List Char) :=
  if cs.takeWhile wsChar = [] then none
  else some (cs.takeWhile wsChar, cs.dropWhile wsChar)

/-- NUMBER rule: digits, optionally a dot followed by one or more digits. -/
def matchNumber (cs : List Char) : Option (List Char × List Char) :=
  let ds := cs.takeWhile Char.isDigit
  if ds = [] then none
  else
    match cs.dropWhile Char.isDigit with
    | '.' :: r2 =>
      let fs := r2.takeWhile Char.isDigit
      if fs = [] then some (ds, '.' :: r2)
      else some (ds ++ '.' :: fs, r2.dropWhile Char.isDigit)
    | rest => some (ds, rest)

/-- Body items of the STRING rule: a greedy run of items, each a single
character other than quote/backslash, or a backslash followed by any
character except newline.  Returns the consumed items and the rest. -/
def strBody : List Char → List Char × List Char
  | '\\' :: c :: rest =>
    if c = '\n' then ([], '\\' :: c :: rest)
    else
      let (i, r) := strBody rest
      ('\\' :: c :: i, r)
  | c :: rest =>
    if c = '"' ∨ c = '\\' then ([], c :: rest)
    else
      let (i, r) := strBody rest
      (c :: i, r)
  | [] => ([], [])

/-- STRING rule: a quote, body items, and a closing quote. -/
def matchStringTok : List Char → Option (List Char × List Char)
  | '"' :: rest =>
    match strBody rest with
    | (body, '"' :: r2) => some ('"' :: (body ++ ['"']), r2)
    | _ => none
  | _ => none

/-- First character class of the ID rule. -/
def idStart (c : Char) : Bool := ('A' ≤ c ∧ c ≤ 'Z') ∨ ('a' ≤ c ∧ c ≤ 'z') ∨ c = '_'

/-- Continuation character class of the ID rule. -/
def idCont (c : Char) : Bool := idStart c ∨ ('0' ≤ c ∧ c ≤ '9')

/-- ID rule. -/
def matchIdent : List Char → Option (List Char × List Char)
  | c :: rest =>
    if idStart c then some (c :: rest.takeWhile idCont, rest.dropWhile idCont)
    else none
  | [] => none

/-- The single-character OP class. -/
def opChars : List Char := ['+', '-', '*', '/', '%', '<', '>', '=', '!', ';', '(', ')', ',', '{', '}']

/-- OP rule: the two-character operators in alternation order, else a
single character from the class. -/
def matchOp : List Char → Option (List Char × List Char)
  | a :: b :: rest =>
    if (a = '=' ∧ b = '=') ∨ (a = '!' ∧ b = '=') ∨ (a = '<' ∧ b = '=')
       ∨ (a = '>' ∧ b = '=') ∨ (a = '&' ∧ b = '&') ∨ (a = '|' ∧ b = '|')
    then some ([a, b], rest)
    else if a ∈ opChars then some ([a], b :: rest) else none
  | [a] => if a ∈ opChars then some ([a], []) else none
  | [] => none

/-- The master alternation: first rule that matches at this position. -/
def matchAny (cs : List Char) : Option (String × List Char × List Char) :=
  match matchComment cs with
  | some (tk, r) => some ("COMMENT", tk, r)
  | none =>
  match matchWS cs with
  | some (tk, r) => some ("WHITESPACE", tk, r)
  | none =>
  match matchNumber cs with
  | some (tk, r) => some ("NUMBER", tk, r)
  | none =>
  match matchStringTok cs with
  | some (tk, r) => some ("STRING", tk, r)
  | none =>
  match matchIdent cs with
  | some (tk, r) => some ("ID", tk, r)
  | none =>
  match matchOp cs with
  | some (tk, r) => some ("OP", tk, r)
  | none => none

/-- The keyword set. -/
def KEYWORDS : List String :=
  ["int", "float", "string", "bool", "if", "else", "while", "for", "return",
   "func", "true", "false", "input", "void"]

/-- `val.upper()` on ASCII keyword text. -/
def upperAscii (s : String) : String := String.mk (s.data.map Char.toUpper)

theorem strBody_append : ∀ (cs : List Char), (strBody cs).1 ++ (strBody cs).2 = cs := by
  intro cs
  induction cs using strBody.induct with
  | case1 rest => simp [strBody]
  | case2 c rest hc i r hsb ih =>
    simp only [strBody, if_neg hc, hsb]
    rw [hsb] at ih
    simp only [List.cons_append]
    rw [ih]
  | case3 c rest hno hc => simp [strBody, hno, hc]
  | case4 c rest hno hc i r hsb ih =>
    simp only [strBody, if_neg hc, hsb]
    rw [hsb] at ih
    simp only [List.cons_append]
    rw [ih]
  | case5 => simp [strBody]

theorem matchComment_split (cs tk r : List Char) (h : matchComment cs = some (tk, r)) :
    tk ≠ [] ∧ tk ++ r = cs := by
  rw [matchComment.eq_def] at h
  split at h
  · simp only [Option.some.injEq, Prod.mk.injEq] at h
    obtain ⟨h1, h2⟩ := h
    subst h1; subst h2
    exact ⟨by simp, by simp [List.takeWhile_append_dropWhile]⟩
  · exact absurd h (by simp)

theorem matchWS_split (cs tk r : List Char) (h : matchWS cs = some (tk, r)) :
    tk ≠ [] ∧ tk ++ r = cs := by
  rw [matchWS.eq_def] at h
  split at h
  · exact absurd h (by simp)
  · rename_i hne
    simp only [Option.some.injEq, Prod.mk.injEq] at h
    obtain ⟨h1, h2⟩ := h
    subst h1; subst h2
    exact ⟨hne, by simp [List.takeWhile_append_dropWhile]⟩

theorem matchNumber_split (cs tk r : List Char) (h : matchNumber cs = some (tk, r)) :
    tk ≠ [] ∧ tk ++ r = cs := by
  rw [matchNumber.eq_def] at h
  simp only at h
  split at h
  · exact absurd h (by simp)
  · rename_i hds
    split at h
    · rename_i r2 hdw
      split at h
      · simp only [Option.some.injEq, Prod.mk.injEq] at h
        obtain ⟨h1, h2⟩ := h
        subst h1; subst h2
        refine ⟨hds, ?_⟩
        conv_rhs => rw [← List.takeWhile_append_dropWhile Char.isDigit cs, hdw]
      · rename_i hfs
        simp only [Option.some.injEq, Prod.mk.injEq] at h
        obtain ⟨h1, h2⟩ := h
        subst h1; subst h2
        refine ⟨by simp [hds], ?_⟩
        conv_rhs => rw [← List.takeWhile_append_dropWhile Char.isDigit cs, hdw,
                        ← List.takeWhile_append_dropWhile Char.isDigit r2]
        simp
    · rename_i rest hdw
      simp only [Option.some.injEq, Prod.mk.injEq] at h
      obtain ⟨h1, h2⟩ := h
      subst h1; subst h2
      refine ⟨hds, ?_⟩
      conv_rhs => rw [← List.takeWhile_append_dropWhile Char.isDigit cs]

theorem matchStringTok_split (cs tk r : List Char) (h : matchStringTok cs = some (tk, r)) :
    tk ≠ [] ∧ tk ++ r = cs := by
  rw [matchStringTok.eq_def] at h
  split at h
  · rename_i rest
    split at h
    · rename_i body r2 hsb
      simp only [Option.some.injEq, Prod.mk.injEq] at h
      obtain ⟨h1, h2⟩ := h
      subst h1; subst h2
      refine ⟨by simp, ?_⟩
      have happ := strBody_append rest
      rw [hsb] at happ
      simp only at happ
      simp only [List.cons_append, List.append_assoc, List.singleton_append, List.nil_append]
      rw [← happ]
    · exact absurd h (by simp)
  · exact absurd h (by simp)

theorem matchIdent_split (cs tk r : List Char) (h : matchIdent cs = some (tk, r)) :
    tk ≠ [] ∧ tk ++ r = cs := by
  rw [matchIdent.eq_def] at h
  split at h
  · split at h
    · simp only [Option.some.injEq, Prod.mk.injEq] at h
      obtain ⟨h1, h2⟩ := h
      subst h1; subst h2
      exact ⟨by simp, by simp [List.takeWhile_append_dropWhile]⟩
    · exact absurd h (by simp)
  · exact absurd h (by simp)

theorem matchOp_split (cs tk r : List Char) (h : matchOp cs = some (tk, r)) :
    tk ≠ [] ∧ tk ++ r = cs := by
  rw [matchOp.eq_def] at h
  split at h
  · split at h
    · simp only [Option.some.injEq, Prod.mk.injEq] at h
      obtain ⟨h1, h2⟩ := h
      subst h1; subst h2
      exact ⟨by simp, rfl⟩
    · split at h
      · simp only [Option.some.injEq, Prod.mk.injEq] at h
        obtain ⟨h1, h2⟩ := h
        subst h1; subst h2
        exact ⟨by simp, rfl⟩
      · exact absurd h (by simp)
  · split at h
    · simp only [Option.some.injEq, Prod.mk.injEq] at h
      obtain ⟨h1, h2⟩ := h
      subst h1; subst h2
      exact ⟨by simp, rfl⟩
    · exact absurd h (by simp)
  · exact absurd h (by simp)

theorem matchAny_split (cs : List Char) (k : String) (tk r : List Char)
    (h : matchAny cs = some (k, tk, r)) : tk ≠ [] ∧ tk ++ r = cs := by
  simp only [matchAny] at h
  split at h
  · rename_i htk
    simp only [Option.some.injEq, Prod.mk.injEq] at h
    obtain ⟨-, h1, h2⟩ := h
    subst h1; subst h2
    exact matchComment_split cs _ _ htk
  · split at h
    · rename_i htk
      simp only [Option.some.injEq, Prod.mk.injEq] at h
      obtain ⟨-, h1, h2⟩ := h
      subst h1; subst h2
      exact matchWS_split cs _ _ htk
    · split at h
      · rename_i htk
        simp only [Option.some.injEq, Prod.mk.injEq] at h
        obtain ⟨-, h1, h2⟩ := h
        subst h1; subst h2
        exact matchNumber_split cs _ _ htk
      · split at h
        · rename_i htk
          simp only [Option.some.injEq, Prod.mk.injEq] at h
          obtain ⟨-, h1, h2⟩ := h
          subst h1; subst h2
          exact matchStringTok_split cs _ _ htk
        · split at h
          · rename_i htk
            simp only [Option.some.injEq, Prod.mk.injEq] at h
            obtain ⟨-, h1, h2⟩ := h
            subst h1; subst h2
            exact matchIdent_split cs _ _ htk
          · split at h
            · rename_i htk
              simp only [Option.some.injEq, Prod.mk.injEq] at h
              obtain ⟨-, h1, h2⟩ := h
              subst h1; subst h2
              exact matchOp_split cs _ _ htk
            · exact absurd h (by simp)

/-- `Lexer.tokenize`: scan from the current character with running
position `pos`; raise on a position where no rule matches (reporting the
position and the offending character, and discarding any tokens already
built); skip whitespace and comments; uppercase keyword token types;
append the EOF sentinel at the end of input. -/
def tokenizeAux (cs : List Char) (pos : Nat) : Except (Nat × Char) (List Token) :=
  match cs with
  | [] => .ok [("EOF", "")]
  | c :: cs' =>
    match hm : matchAny (c :: cs') with
    | none => .error (pos, c)
    | some (kind, tk, rest) =>
      match tokenizeAux rest (pos + tk.length) with
      | .error e => .error e
      | .ok toks =>
        if kind = "WHITESPACE" ∨ kind = "COMMENT" then .ok toks
        else
          let val := String.mk tk
          if kind = "ID" ∧ val ∈ KEYWORDS then .ok ((upperAscii val, val) :: toks)
          else .ok ((kind, val) :: toks)
termination_by cs.length
decreasing_by
  have h := matchAny_split _ _ _ _ hm
  have hlen : (tk ++ rest).length = (c :: cs').length := by rw [h.2]
  simp only [List.length_append, List.length_cons] at hlen
  cases tk with
  | nil => exact absurd rfl h.1
  | cons a as =>
    simp only [List.length_cons] at hlen ⊢
    omega

/-- Tokenize a source string from position 0. -/
def tokenize (s : String) : Except (Nat × Char) (List Token) := tokenizeAux s.data 0

/-- Example function whose only return is nested inside an `if` body. -/
def nestedReturnFunc : FuncDecl :=
  ⟨"int", "f", [],
   [Stmt.IfStmt (Expr.Literal (PyVal.vbool true))
      [Stmt.ReturnStmt (some (Expr.Literal (PyVal.vint 1)))] none]⟩

/-- A program holding one statement node outside the known variants. -/
def unknownNodeProg : Program := ⟨[⟨"void", "main", [], [Stmt.unknownStmt]⟩]⟩

/-- The same program with the unrecognized node removed. -/
def unknownNodeProgErased : Program := ⟨[⟨"void", "main", [], []⟩]⟩

/-! ### Parser (parser.py)

The parser walks the token list with an explicit position.  A Python
`SyntaxError` raise is `synErr`, an out-of-range list access is `idxErr`,
a `ValueError` from `int(tok)` is `valErr`.  Recursion in Python is
unbounded; here every recursive parse function consumes a `fuel`
argument, decremented at each call, with `fuelErr` marking exhaustion
(never reached for sufficient fuel). -/

inductive PErr where
  | synErr
  | idxErr
  | valErr
  | fuelErr
deriving Repr

/-- `self.peek()`: the token at the current position. -/
def peekT (toks : List Token) (pos : Nat) : Except PErr Token :=
  match toks[pos]? with
  | some t => .ok t
  | none => .error .idxErr

/-- `self.expect(typ)`: consume one token, requiring its type. -/
def expectTok (toks : List Token) (pos : Nat) (ty : String) : Except PErr (Token × Nat) :=
  match toks[pos]? with
  | some t => if t.1 = ty then .ok (t, pos + 1) else .error .synErr
  | none => .error .idxErr

/-- `self.expect_op(s)`: consume one token, requiring its text. -/
def expectOpT (toks : List Token) (pos : Nat) (op : String) : Except PErr Nat :=
  match toks[pos]? with
  | some t => if t.2 = op then .ok (pos + 1) else .error .synErr
  | none => .error .idxErr

/-- `self.expect_type()`: peek, and consume if it is a type keyword. -/
def expectTypeTok (toks : List Token) (pos : Nat) : Except PErr (Token × Nat) :=
  match toks[pos]? with
  | some t =>
    if t.1 = "INT" ∨ t.1 = "FLOAT" ∨ t.1 = "STRING" ∨ t.1 = "BOOL" ∨ t.1 = "VOID"
    then .ok (t, pos + 1) else .error .synErr
  | none => .error .idxErr

/-- The `PRECEDENCE` table, fixed at parser-construction time. -/
def PRECEDENCE (op : String) : Option Nat :=
  if op = "||" then some 1
  else if op = "&&" then some 2
  else if op = "==" ∨ op = "!=" then some 3
  else if op = "<" ∨ op = ">" ∨ op = "<=" ∨ op = ">=" then some 4
  else if op = "+" ∨ op = "-" then some 5
  else if op = "*" ∨ op = "/" ∨ op = "%" then some 6
  else none

/-- One hexadecimal digit. -/
def hexVal (c : Char) : Option Nat :=
  if '0' ≤ c ∧ c ≤ '9' then some (c.toNat - '0'.toNat)
  else if 'a' ≤ c ∧ c ≤ 'f' then some (c.toNat - 'a'.toNat + 10)
  else if 'A' ≤ c ∧ c ≤ 'F' then some (c.toNat - 'A'.toNat + 10)
  else none

/-- One octal digit. -/
def octVal (c : Char) : Option Nat :=
  if '0' ≤ c ∧ c ≤ '7' then some (c.toNat - '0'.toNat) else none

/-- Models `bytes(s, "utf-8").decode("unicode_escape")` on the string
literal body, for ASCII sources: standard escapes are decoded, an
unrecognized escape is kept verbatim with its backslash, everything else
passes through. -/
def decodeUnicodeEscape : List Char → List Char
  | [] => []
  | '\\' :: 'n' :: rest => '\n' :: decodeUnicodeEscape rest
  | '\\' :: 't' :: rest => '\t' :: decodeUnicodeEscape rest
  | '\\' :: 'r' :: rest => '\r' :: decodeUnicodeEscape rest
  | '\\' :: '\\' :: rest => '\\' :: decodeUnicodeEscape rest
  | '\\' :: '\'' :: rest => '\'' :: decodeUnicodeEscape rest
  | '\\' :: '"' :: rest => '"' :: decodeUnicodeEscape rest
  | '\\' :: 'a' :: rest => Char.ofNat 7 :: decodeUnicodeEscape rest
  | '\\' :: 'b' :: rest => Char.ofNat 8 :: decodeUnicodeEscape rest
  | '\\' :: 'f' :: rest => Char.ofNat 12 :: decodeUnicodeEscape rest
  | '\\' :: 'v' :: rest => Char.ofNat 11 :: decodeUnicodeEscape rest
  | '\\' :: 'x' :: h1 :: h2 :: rest =>
    match hexVal h1, hexVal h2 with
    | some a, some b => Char.ofNat (a * 16 + b) :: decodeUnicodeEscape rest
    | _, _ => '\\' :: 'x' :: decodeUnicodeEscape (h1 :: h2 :: rest)
  | '\\' :: c :: rest =>
    match octVal c with
    | some a => Char.ofNat a :: decodeUnicodeEscape rest
    | none => '\\' :: c :: decodeUnicodeEscape rest
  | c :: rest => c :: decodeUnicodeEscape rest

mutual

/-- `parse_expr(min_prec)`: precedence-climbing expression parser.  A
leading `+`, `-` or `!` (tested on the token text) is parsed as a unary
operator whose operand is parsed at level 7, above every binary
precedence; otherwise a primary expression is parsed; then the binary
operator loop runs. -/
def parseExpr : Nat → List Token → Nat → Nat → Except PErr (Expr × Nat)
  | 0, _, _, _ => .error .fuelErr
  | fuel + 1, toks, pos, minPrec =>
    match peekT toks pos with
    | .error e => .error e
    | .ok t =>
      if t.2 = "+" ∨ t.2 = "-" ∨ t.2 = "!" then
        match parseExpr fuel toks (pos + 1) 7 with
        | .error e => .error e
        | .ok (operand, pos2) =>
          parseBinLoop fuel toks pos2 minPrec (Expr.UnaryExpr t.2 operand)
      else
        match parsePrimary fuel toks pos with
        | .error e => .error e
        | .ok (left, pos2) => parseBinLoop fuel toks pos2 minPrec left
  termination_by structural fuel toks pos minPrec => fuel

/-- The `while True` binary-operator loop of `parse_expr`: stop when the
next token is not an operator in the table or its precedence is below
`minPrec`; otherwise consume it, parse the right operand at
`precedence + 1`, build a `BinaryExpr`, and continue. -/
def parseBinLoop : Nat → List Token → Nat → Nat → Expr → Except PErr (Expr × Nat)
  | 0, _, _, _, _ => .error .fuelErr
  | fuel + 1, toks, pos, minPrec, left =>
    match peekT toks pos with
    | .error e => .error e
    | .ok tok =>
      match PRECEDENCE tok.2 with
      | none => .ok (left, pos)
      | some prec =>
        if prec < minPrec then .ok (left, pos)
        else
          match parseExpr fuel toks (pos + 1) (prec + 1) with
          | .error e => .error e
          | .ok (right, pos2) =>
            parseBinLoop fuel toks pos2 minPrec (Expr.BinaryExpr left tok.2 right)
  termination_by structural fuel toks pos minPrec left => fuel

/-- `parse_primary`: literals, identifiers (variable, call, assignment)
and parenthesized expressions. -/
def parsePrimary : Nat → List Token → Nat → Except PErr (Expr × Nat)
  | 0, _, _ => .error .fuelErr
  | fuel + 1, toks, pos =>
    match peekT toks pos with
    | .error e => .error e
    | .ok t =>
      if t.1 = "NUMBER" then
        if t.2.contains '.' then .ok (Expr.Literal (PyVal.vfloat t.2), pos + 1)
        else
          match t.2.toNat? with
          | some n => .ok (Expr.Literal (PyVal.vint n), pos + 1)
          | none => .error .valErr
      else if t.1 = "STRING" then
        .ok (Expr.Literal (PyVal.vstr
          (String.mk (decodeUnicodeEscape ((t.2.data.drop 1).dropLast)))), pos + 1)
      else if t.1 = "TRUE" ∨ t.1 = "FALSE" then
        .ok (Expr.Literal (PyVal.vbool (t.1 = "TRUE")), pos + 1)
      else if t.1 = "ID" then
        match peekT toks (pos + 1) with
        | .error e => .error e
        | .ok t2 =>
          if t2.2 = "(" then
            match peekT toks (pos + 2) with
            | .error e => .error e
            | .ok t3 =>
              if t3.2 ≠ ")" then
                match parseCallArgs fuel toks (pos + 2) [] with
                | .error e => .error e
                | .ok (args, pos3) =>
                  match expectOpT toks pos3 ")" with
                  | .error e => .error e
                  | .ok pos4 => .ok (Expr.FuncCall t.2 args, pos4)
              else
                match expectOpT toks (pos + 2) ")" with
                | .error e => .error e
                | .ok pos4 => .ok (Expr.FuncCall t.2 [], pos4)
          else if t2.2 = "=" then
            match parseExpr fuel toks (pos + 2) 1 with
            | .error e => .error e
            | .ok (v, pos3) => .ok (Expr.AssignExpr t.2 v, pos3)
          else .ok (Expr.VarRef t.2, pos + 1)
      else if t.2 = "(" then
        match parseExpr fuel toks (pos + 1) 1 with
        | .error e => .error e
        | .ok (e, pos2) =>
          match expectOpT toks pos2 ")" with
          | .error e2 => .error e2
          | .ok pos3 => .ok (e, pos3)
      else .error .synErr
  termination_by structural fuel toks pos => fuel

/-- The argument loop of a function call in `parse_primary`. -/
def parseCallArgs : Nat → List Token → Nat → List Expr → Except PErr (List Expr × Nat)
  | 0, _, _, _ => .error .fuelErr
  | fuel + 1, toks, pos, acc =>
    match parseExpr fuel toks pos 1 with
    | .error e => .error e
    | .ok (a, pos2) =>
      match peekT toks pos2 with
      | .error e => .error e
      | .ok t =>
        if t.2 = "," then parseCallArgs fuel toks (pos2 + 1) (acc ++ [a])
        else .ok (acc ++ [a], pos2)
  termination_by structural fuel toks pos acc => fuel

end

/-- The declarator loop of `parse_vardecl`. -/
def parseVardeclLoop : Nat → List Token → Nat → String → List (String × Option Expr) →
    Except PErr (Stmt × Nat)
  | 0, _, _, _, _ => .error .fuelErr
  | fuel + 1, toks, pos, typ, acc =>
    match expectTok toks pos "ID" with
    | .error e => .error e
    | .ok (nt, pos1) =>
      match peekT toks pos1 with
      | .error e => .error e
      | .ok t =>
        match (if t.2 = "=" then
                 match parseExpr fuel toks (pos1 + 1) 1 with
                 | .error e => .error e
                 | .ok (e, p2) => .ok (some e, p2)
               else .ok (none, pos1) : Except PErr (Option Expr × Nat)) with
        | .error e => .error e
        | .ok (init, pos2) =>
          match peekT toks pos2 with
          | .error e => .error e
          | .ok t2 =>
            if t2.2 = "," then
              parseVardeclLoop fuel toks (pos2 + 1) typ (acc ++ [(nt.2, init)])
            else
              match expectOpT toks pos2 ";" with
              | .error e => .error e
              | .ok pos3 => .ok (Stmt.VarDecl typ (acc ++ [(nt.2, init)]), pos3)

/-- `parse_vardecl`: `type name1, name2 = init, ... ;`. -/
def parseVardecl (fuel : Nat) (toks : List Token) (pos : Nat) : Except PErr (Stmt × Nat) :=
  match expectTypeTok toks pos with
  | .error e => .error e
  | .ok (tt, pos1) => parseVardeclLoop fuel toks pos1 tt.2 []

/-- The declarator loop of `parse_vardecl_for`. -/
def parseVardeclForLoop : Nat → List Token → Nat → String → List (String × Option Expr) →
    Except PErr (Stmt × Nat)
  | 0, _, _, _, _ => .error .fuelErr
  | fuel + 1, toks, pos, typ, acc =>
    match expectTok toks pos "ID" with
    | .error e => .error e
    | .ok (nt, pos1) =>
      match peekT toks pos1 with
      | .error e => .error e
      | .ok t =>
        match (if t.2 = "=" then
                 match parseExpr fuel toks (pos1 + 1) 1 with
                 | .error e => .error e
                 | .ok (e, p2) => .ok (some e, p2)
               else .ok (none, pos1) : Except PErr (Option Expr × Nat)) with
        | .error e => .error e
        | .ok (init, pos2) =>
          match peekT toks pos2 with
          | .error e => .error e
          | .ok t2 =>
            if t2.2 = "," then
              parseVardeclForLoop fuel toks (pos2 + 1) typ (acc ++ [(nt.2, init)])
            else
              match expectOpT toks pos2 ";" with
              | .error e => .error e
              | .ok pos3 => .ok (Stmt.VarDecl typ (acc ++ [(nt.2, init)]), pos3)

/-- `parse_vardecl_for`: the variable declaration inside a `for` header
(also consumes the `;`). -/
def parseVardeclFor (fuel : Nat) (toks : List Token) (pos : Nat) : Except PErr (Stmt × Nat) :=
  match expectTypeTok toks pos with
  | .error e => .error e
  | .ok (tt, pos1) => parseVardeclForLoop fuel toks pos1 tt.2 []

/-- Token list for a three-operand chain `a op b op c`. -/
def tks3 (op : String) : List Token :=
  [("ID", "a"), ("OP", op), ("ID", "b"), ("OP", op), ("ID", "c"), ("EOF", "")]

/-- Token list for a two-operand expression `a op b`. -/
def tks2 (op : String) : List Token :=
  [("ID", "a"), ("OP", op), ("ID", "b"), ("EOF", "")]

/-- Token list for a unary followed by a binary: `u a bop b`. -/
def tksU (u bop : String) : List Token :=
  [("OP", u), ("ID", "a"), ("OP", bop), ("ID", "b"), ("EOF", "")]

/-! ### Theorems -/

theorem tokenizeAux_nil (pos : Nat) : tokenizeAux [] pos = .ok [("EOF", "")] := by
  rw [tokenizeAux]

theorem tokenizeAux_cons (c : Char) (cs' : List Char) (pos : Nat) :
    tokenizeAux (c :: cs') pos =
      match matchAny (c :: cs') with
      | none => .error (pos, c)
      | some (kind, tk, rest) =>
        match tokenizeAux rest (pos + tk.length) with
        | .error e => .error e
        | .ok toks =>
          if kind = "WHITESPACE" ∨ kind = "COMMENT" then .ok toks
          else
            if kind = "ID" ∧ String.mk tk ∈ KEYWORDS
            then .ok ((upperAscii (String.mk tk), String.mk tk) :: toks)
            else .ok ((kind, String.mk tk) :: toks) := by
  rw [tokenizeAux.eq_def]
  dsimp only []
  split
  · rename_i hm
    rw [hm]
  · rename_i kind tk rest hm
    rw [hm]

theorem drop_append_len (t r : List Char) (k : Nat) :
    (t ++ r).drop (t.length + k) = r.drop k := by
  induction t with
  | nil => simp
  | cons a as ih =>
    simp only [List.cons_append, List.length_cons]
    rw [show as.length + 1 + k = (as.length + k) + 1 by omega]
    simpa using ih

theorem tokenizeAux_spec : ∀ (n : Nat) (cs : List Char) (pos : Nat), cs.length ≤ n →
    (∀ p c, tokenizeAux cs pos = .error (p, c) →
      pos ≤ p ∧ (cs.drop (p - pos)).head? = some c ∧ matchAny (cs.drop (p - pos)) = none)
    ∧ (∀ toks, tokenizeAux cs pos = .ok toks →
      toks.getLast? = some ("EOF", "")
      ∧ ∀ t ∈ toks, t.1 ≠ "WHITESPACE" ∧ t.1 ≠ "COMMENT") := by
  intro n
  induction n with
  | zero =>
    intro cs pos hlen
    have hnil : cs = [] := List.length_eq_zero.1 (Nat.le_zero.1 hlen)
    subst hnil
    constructor
    · intro p c h
      rw [tokenizeAux] at h
      exact absurd h (by simp)
    · intro toks h
      rw [tokenizeAux] at h
      simp only [Except.ok.injEq] at h
      subst h
      refine ⟨rfl, ?_⟩
      intro t ht
      simp only [List.mem_singleton] at ht
      subst ht
      exact ⟨by decide, by decide⟩
  | succ n ih =>
    intro cs pos hlen
    match cs with
    | [] =>
      constructor
      · intro p c h
        rw [tokenizeAux] at h
        exact absurd h (by simp)
      · intro toks h
        rw [tokenizeAux] at h
        simp only [Except.ok.injEq] at h
        subst h
        refine ⟨rfl, ?_⟩
        intro t ht
        simp only [List.mem_singleton] at ht
        subst ht
        exact ⟨by decide, by decide⟩
    | c :: cs' =>
      rw [tokenizeAux.eq_def]
      simp only
      split
      · rename_i hm
        constructor
        · intro p c' h
          simp only [Except.error.injEq, Prod.mk.injEq] at h
          obtain ⟨h1, h2⟩ := h
          subst h1; subst h2
          exact ⟨Nat.le_refl _, by simp, by simpa using hm⟩
        · intro toks h
          exact absurd h (by simp)
      · rename_i kind tk rest hm
        obtain ⟨htk, happ⟩ := matchAny_split _ _ _ _ hm
        have hrest : rest.length ≤ n := by
          have : (tk ++ rest).length = (c :: cs').length := by rw [happ]
          simp only [List.length_append, List.length_cons] at this
          cases tk with
          | nil => exact absurd rfl htk
          | cons a as =>
            simp only [List.length_cons] at this hlen
            omega
        have ihr := ih rest (pos + tk.length) hrest
        split
        · rename_i e hrec
          constructor
          · intro p c' h
            simp only [Except.error.injEq] at h
            subst h
            obtain ⟨hple, hhead, hnone⟩ := ihr.1 p c' hrec
            have hdrop : (c :: cs').drop (p - pos) = rest.drop (p - (pos + tk.length)) := by
              rw [← happ]
              rw [show p - pos = tk.length + (p - (pos + tk.length)) by omega]
              exact drop_append_len tk rest _
            rw [hdrop]
            exact ⟨by omega, hhead, hnone⟩
          · intro toks h
            exact absurd h (by simp)
        · rename_i toks hrec
          obtain ⟨hlast, hmem⟩ := ihr.2 toks hrec
          have hne : toks ≠ [] := by
            intro hh
            rw [hh] at hlast
            exact absurd hlast (by simp)
          split
          · constructor
            · intro p c' h
              exact absurd h (by simp)
            · intro toks' h
              simp only [Except.ok.injEq] at h
              subst h
              exact ⟨hlast, hmem⟩
          · rename_i hskip
            constructor
            · intro p c' h
              split at h <;> exact absurd h (by simp)
            · intro toks' h
              have hcons : ∀ (x : Token), toks' = x :: toks →
                  x.1 ≠ "WHITESPACE" → x.1 ≠ "COMMENT" →
                  toks'.getLast? = some ("EOF", "")
                  ∧ ∀ t ∈ toks', t.1 ≠ "WHITESPACE" ∧ t.1 ≠ "COMMENT" := by
                intro x hx hxw hxc
                subst hx
                constructor
                · match toks, hne with
                  | b :: l, _ => rw [List.getLast?_cons_cons]; exact hlast
                · intro t ht
                  rcases List.mem_cons.1 ht with hteq | htm
                  · subst hteq
                    exact ⟨hxw, hxc⟩
                  · exact hmem t htm
              split at h
              · rename_i hkw
                simp only [Except.ok.injEq] at h
                subst h
                have hval : String.mk tk ∈ KEYWORDS := hkw.2
                refine hcons _ rfl ?_ ?_
                · simp only [KEYWORDS, List.mem_cons, List.mem_singleton] at hval
                  rcases hval with h' | h' | h' | h' | h' | h' | h' | h' | h' | h' | h' | h' | h' | h' | h' <;>
                    first
                      | (rw [h']; decide)
                      | exact absurd h' (by simp)
                · simp only [KEYWORDS, List.mem_cons, List.mem_singleton] at hval
                  rcases hval with h' | h' | h' | h' | h' | h' | h' | h' | h' | h' | h' | h' | h' | h' | h' <;>
                    first
                      | (rw [h']; decide)
                      | exact absurd h' (by simp)
              · simp only [Except.ok.injEq] at h
                subst h
                refine hcons _ rfl ?_ ?_
                · intro hh
                  exact hskip (Or.inl hh)
                · intro hh
                  exact hskip (Or.inr hh)

theorem PRECEDENCE_cases (op : String) (p : Nat) (h : PRECEDENCE op = some p) :
    (op, p) ∈ [("||", 1), ("&&", 2), ("==", 3), ("!=", 3), ("<", 4), (">", 4),
               ("<=", 4), (">=", 4), ("+", 5), ("-", 5), ("*", 6), ("/", 6), ("%", 6)] := by
  simp only [PRECEDENCE] at h
  split_ifs at h with h1 h2 h3 h4 h5 h6
  · injection h with hp; subst hp; subst h1; simp
  · injection h with hp; subst hp; subst h2; simp
  · injection h with hp; subst hp; rcases h3 with rfl | rfl <;> simp
  · injection h with hp; subst hp; rcases h4 with rfl | rfl | rfl | rfl <;> simp
  · injection h with hp; subst hp; rcases h5 with rfl | rfl <;> simp
  · injection h with hp; subst hp; rcases h6 with rfl | rfl | rfl <;> simp

theorem tks2_ite (op : String) (p : Nat) (hop : PRECEDENCE op = some p) (m : Nat) :
    parseExpr 20 (tks2 op) 0 m =
      if p < m then .ok (Expr.VarRef "a", 1)
      else .ok (Expr.BinaryExpr (Expr.VarRef "a") op (Expr.VarRef "b"), 3) := by
  have hmem := PRECEDENCE_cases op p hop
  fin_cases hmem <;> rfl

/-- C4: the expression parser at minimum precedence `m` consumes a binary
operator only when its table precedence is at least `m` (second and third
conjuncts: below `m` the operand is returned untouched, at or above `m`
the operator is consumed), and because the right operand is parsed at
`precedence + 1`, a chain of equal-precedence operators associates to the
left (first conjunct, for every operator of the table). -/
theorem precedence_climbing_spec :
    (∀ op, op ∈ ["||", "&&", "==", "!=", "<", ">", "<=", ">=", "+", "-", "*", "/", "%"] →
      parseExpr 20 (tks3 op) 0 1 =
        .ok (Expr.BinaryExpr (Expr.BinaryExpr (Expr.VarRef "a") op (Expr.VarRef "b")) op
              (Expr.VarRef "c"), 5))
    ∧ (∀ op p m, PRECEDENCE op = some p → p < m →
        parseExpr 20 (tks2 op) 0 m = .ok (Expr.VarRef "a", 1))
    ∧ (∀ op p m, PRECEDENCE op = some p → m ≤ p →
        parseExpr 20 (tks2 op) 0 m =
          .ok (Expr.BinaryExpr (Expr.VarRef "a") op (Expr.VarRef "b"), 3)) := by
  refine ⟨?_, ?_, ?_⟩
  · intro op hop
    fin_cases hop <;> rfl
  · intro op p m hop hlt
    rw [tks2_ite op p hop m, if_pos hlt]
  · intro op p m hop hle
    rw [tks2_ite op p hop m, if_neg (by omega)]

/-- C4 witness: `a - b - c` parses left-associated; `a * b` is cut off at
threshold 7 and parsed at threshold 6. -/
theorem precedence_climbing_spec_witness :
    parseExpr 20 (tks3 "-") 0 1 =
      .ok (Expr.BinaryExpr (Expr.BinaryExpr (Expr.VarRef "a") "-" (Expr.VarRef "b")) "-"
            (Expr.VarRef "c"), 5)
    ∧ parseExpr 20 (tks2 "*") 0 7 = .ok (Expr.VarRef "a", 1)
    ∧ parseExpr 20 (tks2 "*") 0 6 =
        .ok (Expr.BinaryExpr (Expr.VarRef "a") "*" (Expr.VarRef "b"), 3) :=
  ⟨precedence_climbing_spec.1 "-" (by simp),
   precedence_climbing_spec.2.1 "*" 6 7 rfl (by omega),
   precedence_climbing_spec.2.2 "*" 6 6 rfl (by omega)⟩

/-- C5: a leading `+`, `-` or `!` parses its operand at level 7, strictly
above every binary precedence of the table (second conjunct), so for
every binary operator the unary operator binds only the first operand:
`u a bop b` parses as `BinaryExpr (UnaryExpr u a) bop b`, never as
`UnaryExpr u (BinaryExpr a bop b)`. -/
theorem unary_tightest_spec :
    (∀ u, u ∈ ["+", "-", "!"] →
      ∀ bop, bop ∈ ["||", "&&", "==", "!=", "<", ">", "<=", ">=", "+", "-", "*", "/", "%"] →
        parseExpr 20 (tksU u bop) 0 1 =
          .ok (Expr.BinaryExpr (Expr.UnaryExpr u (Expr.VarRef "a")) bop (Expr.VarRef "b"), 4))
    ∧ (∀ bop p, PRECEDENCE bop = some p → p < 7) := by
  constructor
  · intro u hu bop hbop
    fin_cases hu <;> fin_cases hbop <;> rfl
  · intro bop p h
    have hmem := PRECEDENCE_cases bop p h
    fin_cases hmem <;> omega

/-- C5 witness: `- a * b` parses as `(-a) * b`, and `*` has precedence
below the unary operand level 7. -/
theorem unary_tightest_spec_witness :
    parseExpr 20 (tksU "-" "*") 0 1 =
      .ok (Expr.BinaryExpr (Expr.UnaryExpr "-" (Expr.VarRef "a")) "*" (Expr.VarRef "b"), 4)
    ∧ 6 < 7 :=
  ⟨unary_tightest_spec.1 "-" (by simp) "*" (by simp),
   unary_tightest_spec.2 "*" 6 rfl⟩

theorem parseVardeclForLoop_eq (fuel : Nat) : ∀ (toks : List Token) (pos : Nat)
    (typ : String) (acc : List (String × Option Expr)),
    parseVardeclForLoop fuel toks pos typ acc = parseVardeclLoop fuel toks pos typ acc := by
  induction fuel with
  | zero => intro toks pos typ acc; rfl
  | succ n ih =>
    intro toks pos typ acc
    simp only [parseVardeclForLoop, parseVardeclLoop, ih]

theorem parseVardeclLoop_semicolon (fuel : Nat) : ∀ (toks : List Token) (pos : Nat)
    (typ : String) (acc : List (String × Option Expr)) (st : Stmt) (pos2 : Nat),
    parseVardeclLoop fuel toks pos typ acc = .ok (st, pos2) →
    1 ≤ pos2 ∧ ∃ t, toks[pos2 - 1]? = some t ∧ t.2 = ";" := by
  induction fuel with
  | zero =>
    intro toks pos typ acc st pos2 h
    exact absurd h (by simp [parseVardeclLoop])
  | succ n ih =>
    intro toks pos typ acc st pos2 h
    rw [parseVardeclLoop] at h
    split at h
    · exact absurd h (by simp)
    · split at h
      · exact absurd h (by simp)
      · split at h
        · exact absurd h (by simp)
        · split at h
          · exact absurd h (by simp)
          · split at h
            · exact ih _ _ _ _ _ _ h
            · rename_i hexp
              split at h
              · exact absurd h (by simp)
              · rename_i pos3 hop
                simp only [Except.ok.injEq, Prod.mk.injEq] at h
                obtain ⟨-, h2⟩ := h
                subst h2
                rw [expectOpT] at hop
                split at hop
                · rename_i t ht
                  split at hop
                  · rename_i hsemi
                    simp only [Except.ok.injEq] at hop
                    subst hop
                    exact ⟨by omega, t, by simpa using ht, hsemi⟩
                  · exact absurd hop (by simp)
                · exact absurd hop (by simp)

/-- C10: the declaration-parsing path used for a `for` loop's init clause
is extensionally equal to the ordinary variable-declaration path: on every
token list, start position and recursion budget they return identical
results (same error, or same `VarDecl` with the same ordered declarators
and the same final position); and every successful parse ends just past a
`;` token. -/
theorem parse_vardecl_paths_agree (fuel : Nat) (toks : List Token) (pos : Nat) :
    parseVardeclFor fuel toks pos = parseVardecl fuel toks pos
    ∧ (∀ st pos2, parseVardecl fuel toks pos = .ok (st, pos2) →
        1 ≤ pos2 ∧ ∃ t, toks[pos2 - 1]? = some t ∧ t.2 = ";") := by
  constructor
  · rw [parseVardeclFor, parseVardecl]
    split
    · rfl
    · exact parseVardeclForLoop_eq fuel toks _ _ _
  · intro st pos2 h
    rw [parseVardecl] at h
    split at h
    · exact absurd h (by simp)
    · exact parseVardeclLoop_semicolon fuel toks _ _ _ st pos2 h

/-- C10 witness: `int x;` parsed by the ordinary path ends at position 3,
just past the `;` at position 2. -/
theorem parse_vardecl_paths_agree_witness :
    1 ≤ 3 ∧ ∃ t, ([("INT", "int"), ("ID", "x"), ("OP", ";"), ("EOF", "")] :
      List Token)[3 - 1]? = some t ∧ t.2 = ";" :=
  (parse_vardecl_paths_agree 10 [("INT", "int"), ("ID", "x"), ("OP", ";"), ("EOF", "")] 0).2
    (Stmt.VarDecl "int" [("x", none)]) 3 rfl

/-- C9: behaviour of `Lexer.tokenize` on every source text: on reaching a
position where no tokenizer rule matches (stray character, or the opening
quote of an unterminated string), tokenization fails with an error
carrying exactly that position and the character found there, and no
partial token stream is returned (the error constructor carries no
tokens); when the whole text is consumed, it returns a token list that
contains no WHITESPACE or COMMENT tokens and ends with the EOF
sentinel. -/
theorem tokenize_error_or_tokens (s : String) :
    (∀ p c, tokenize s = .error (p, c) →
      (s.data.drop p).head? = some c ∧ matchAny (s.data.drop p) = none)
    ∧ (∀ toks, tokenize s = .ok toks →
      toks.getLast? = some ("EOF", "")
      ∧ ∀ t ∈ toks, t.1 ≠ "WHITESPACE" ∧ t.1 ≠ "COMMENT") := by
  have h := tokenizeAux_spec s.data.length s.data 0 (Nat.le_refl _)
  constructor
  · intro p c herr
    have := h.1 p c herr
    simpa using this.2
  · exact h.2

/-- C9 witness: an unterminated string fails at the opening quote with no
rule matching there; a well-formed source yields a WHITESPACE/COMMENT-free
EOF-terminated stream. -/
theorem tokenize_error_or_tokens_witness :
    ((String.mk ['x', ' ', '"', 'a', 'b']).data.drop 2).head? = some '"'
    ∧ matchAny ((String.mk ['x', ' ', '"', 'a', 'b']).data.drop 2) = none
    ∧ [("INT", "int"), ("ID", "x"), ("OP", ";"), ("EOF", "")].getLast? = some ("EOF", "")
    ∧ ∀ t ∈ [("INT", "int"), ("ID", "x"), ("OP", ";"), ("EOF", "")],
        t.1 ≠ "WHITESPACE" ∧ t.1 ≠ "COMMENT" := by
  have he : tokenize (String.mk ['x', ' ', '"', 'a', 'b']) = .error (2, '"') := by
    show tokenizeAux ['x', ' ', '"', 'a', 'b'] 0 = .error (2, '"')
    simp only [tokenizeAux_cons, tokenizeAux_nil,
      show matchAny ['x', ' ', '"', 'a', 'b'] =
        some ("ID", ['x'], [' ', '"', 'a', 'b']) from rfl,
      show matchAny [' ', '"', 'a', 'b'] =
        some ("WHITESPACE", [' '], ['"', 'a', 'b']) from rfl,
      show matchAny ['"', 'a', 'b'] = none from rfl]
    simp [KEYWORDS, show String.mk ['x'] = "x" from rfl]
  have hok : tokenize (String.mk ['i', 'n', 't', ' ', 'x', ';']) =
      .ok [("INT", "int"), ("ID", "x"), ("OP", ";"), ("EOF", "")] := by
    show tokenizeAux ['i', 'n', 't', ' ', 'x', ';'] 0 = _
    simp only [tokenizeAux_cons, tokenizeAux_nil,
      show matchAny ['i', 'n', 't', ' ', 'x', ';'] =
        some ("ID", ['i', 'n', 't'], [' ', 'x', ';']) from rfl,
      show matchAny [' ', 'x', ';'] = some ("WHITESPACE", [' '], ['x', ';']) from rfl,
      show matchAny ['x', ';'] = some ("ID", ['x'], [';']) from rfl,
      show matchAny [';'] = some ("OP", [';'], []) from rfl]
    simp only [show String.mk ['i', 'n', 't'] = "int" from rfl,
               show String.mk ['x'] = "x" from rfl,
               show String.mk [';'] = ";" from rfl]
    simp [KEYWORDS, show upperAscii "int" = "INT" from rfl]
  have h1 := (tokenize_error_or_tokens (String.mk ['x', ' ', '"', 'a', 'b'])).1 2 '"' he
  have h2 := (tokenize_error_or_tokens (String.mk ['i', 'n', 't', ' ', 'x', ';'])).2
    [("INT", "int"), ("ID", "x"), ("OP", ";"), ("EOF", "")] hok
  exact ⟨h1.1, h1.2, h2.1, h2.2⟩

/-- C1: a function whose declared return type is not `void` and whose
immediate body list contains no `ReturnStmt` gets exactly one synthesized
trailing `return 0;` before the closing brace; a `void` function, or one
with a top-level `ReturnStmt` anywhere in its immediate body list, gets no
fallback.  The check is `any(isinstance(s, ReturnStmt) for s in f.body)`,
which looks only at the immediate statement list: `if`/`while` nodes are
never `ReturnStmt`s, so returns nested inside them do not suppress the
fallback (third conjunct, and the concrete `nestedReturnFunc` example). -/
theorem fallback_return_spec (f : FuncDecl) :
    (f.return_type ≠ "void" → f.body.any isReturnStmt = false →
      genFunction f = funcHeader f ::
        (genStmtList 1 f.body ++ [indentStr 1 ++ "return 0;", "\x7d"]))
    ∧ (f.return_type = "void" ∨ f.body.any isReturnStmt = true →
      genFunction f = funcHeader f :: (genStmtList 1 f.body ++ ["\x7d"]))
    ∧ (∀ c tb eb b2, isReturnStmt (Stmt.IfStmt c tb eb) = false
        ∧ isReturnStmt (Stmt.WhileStmt c b2) = false)
    ∧ genFunction nestedReturnFunc =
        funcHeader nestedReturnFunc ::
          (genStmtList 1 nestedReturnFunc.body ++ [indentStr 1 ++ "return 0;", "\x7d"]) := by
  refine ⟨?_, ?_, ?_, rfl⟩
  · intro h1 h2
    simp [genFunction, h1, h2]
  · intro h
    rcases h with h | h <;> simp [genFunction, h]
  · intro c tb eb b2
    exact ⟨rfl, rfl⟩

/-- C1 witness: instantiation at `nestedReturnFunc`, whose hypotheses are
discharged concretely. -/
theorem fallback_return_spec_witness :
    genFunction nestedReturnFunc = funcHeader nestedReturnFunc ::
      (genStmtList 1 nestedReturnFunc.body ++ [indentStr 1 ++ "return 0;", "\x7d"]) :=
  (fallback_return_spec nestedReturnFunc).1 (by decide) (by rfl)

/-- C2: lowering of `for`.  With a `VarDecl` init clause, every declarator
is emitted as its own uninitialized declaration line before the loop, and
the initializers (in declarator order, only those present) are joined by
"; " into the header's init slot as bare assignments; with an `ExprStmt`
init clause the expression goes directly into the init slot; a missing
condition lowers to the literal `1`; a missing post-expression lowers to
an empty slot. -/
theorem for_lowering_spec (ind : Nat) (body : List Stmt) (cond post : Option Expr) :
    (∀ (vt : String) (names : List (String × Option Expr)),
      genStmt ind (Stmt.ForStmt (some (Stmt.VarDecl vt names)) cond post body) =
        names.map (fun nm => indentStr ind ++ mapType vt ++ " " ++ nm.1 ++ ";")
        ++ [indentStr ind ++ "for ("
            ++ String.intercalate "; "
                 (names.filterMap (fun nm => nm.2.map (fun e => nm.1 ++ " = " ++ genExpr e)))
            ++ "; " ++ (match cond with | some c => genExpr c | none => "1")
            ++ "; " ++ (match post with | some e => genExpr e | none => "") ++ ") \x7b"]
        ++ genStmtList (ind + 1) body ++ [indentStr ind ++ "\x7d"])
    ∧ (∀ (e : Expr),
      genStmt ind (Stmt.ForStmt (some (Stmt.ExprStmt e)) cond post body) =
        [indentStr ind ++ "for (" ++ genExpr e
         ++ "; " ++ (match cond with | some c => genExpr c | none => "1")
         ++ "; " ++ (match post with | some e => genExpr e | none => "") ++ ") \x7b"]
        ++ genStmtList (ind + 1) body ++ [indentStr ind ++ "\x7d"])
    ∧ genStmt ind (Stmt.ForStmt none cond post body) =
        [indentStr ind ++ "for ("
         ++ "; " ++ (match cond with | some c => genExpr c | none => "1")
         ++ "; " ++ (match post with | some e => genExpr e | none => "") ++ ") \x7b"]
        ++ genStmtList (ind + 1) body ++ [indentStr ind ++ "\x7d"] := by
  have hnil : String.intercalate "; " ([] : List String) = "" := rfl
  refine ⟨?_, ?_, ?_⟩
  · intro vt names
    by_cases h : (names.filterMap (fun nm => nm.2.map (fun e => nm.1 ++ " = " ++ genExpr e))) = []
    · simp [genStmt, h, hnil]
    · simp [genStmt, h]
  · intro e
    simp [genStmt]
  · simp [genStmt]

/-- C3: lowering of calls to the builtin `print`: no argument emits a bare
newline; one argument selects the format from the static literal kind of
the argument (string, float, bool, default int), and any non-literal
argument always lowers to the integer format. -/
theorem print_format_spec :
    (genExpr (Expr.FuncCall "print" []) = "printf(\"\\n\")")
    ∧ (∀ (s : String) (rest : List Expr),
        genExpr (Expr.FuncCall "print" (Expr.Literal (PyVal.vstr s) :: rest)) =
          "printf(\"%s\\n\", " ++ genExpr (Expr.Literal (PyVal.vstr s)) ++ ")")
    ∧ (∀ (r : String) (rest : List Expr),
        genExpr (Expr.FuncCall "print" (Expr.Literal (PyVal.vfloat r) :: rest)) =
          "printf(\"%f\\n\", " ++ genExpr (Expr.Literal (PyVal.vfloat r)) ++ ")")
    ∧ (∀ (b : Bool) (rest : List Expr),
        genExpr (Expr.FuncCall "print" (Expr.Literal (PyVal.vbool b) :: rest)) =
          "printf(\"%s\\n\", " ++ genExpr (Expr.Literal (PyVal.vbool b))
          ++ " ? \"true\" : \"false\")")
    ∧ (∀ (n : Nat) (rest : List Expr),
        genExpr (Expr.FuncCall "print" (Expr.Literal (PyVal.vint n) :: rest)) =
          "printf(\"%d\\n\", " ++ genExpr (Expr.Literal (PyVal.vint n)) ++ ")")
    ∧ (∀ (e : Expr) (rest : List Expr), isLiteral e = false →
        genExpr (Expr.FuncCall "print" (e :: rest)) =
          "printf(\"%d\\n\", " ++ genExpr e ++ ")") := by
  refine ⟨rfl, ?_, ?_, ?_, ?_, ?_⟩
  · intro s rest; simp [genExpr]
  · intro r rest; simp [genExpr]
  · intro b rest; simp [genExpr]
  · intro n rest; simp [genExpr]
  · intro e rest h
    cases e <;> simp [isLiteral] at h ⊢ <;> simp [genExpr]

/-- C3 witness: a call with a variable argument lowers to integer format
regardless of the variable's type. -/
theorem print_format_spec_witness :
    genExpr (Expr.FuncCall "print" [Expr.VarRef "x"]) = "printf(\"%d\\n\", x)" := by
  have h := print_format_spec.2.2.2.2.2 (Expr.VarRef "x") [] rfl
  rw [h]; rfl

/-- C7: each declarator of a variable declaration lowers to its own
statement line, in declarator order: an uninitialized declaration when
there is no initializer, a declaration with initializer otherwise. -/
theorem vardecl_each_declarator (ind : Nat) (vt : String)
    (names : List (String × Option Expr)) :
    (genStmt ind (Stmt.VarDecl vt names)).length = names.length
    ∧ ∀ (i : Nat),
      (genStmt ind (Stmt.VarDecl vt names))[i]? =
        (names[i]?).map (fun nm =>
          match nm.2 with
          | none => indentStr ind ++ mapType vt ++ " " ++ nm.1 ++ ";"
          | some e => indentStr ind ++ mapType vt ++ " " ++ nm.1 ++ " = " ++ genExpr e ++ ";") := by
  constructor
  · simp [genStmt]
  · intro i
    simp [genStmt, List.getElem?_map]

/-- C6: output structure of `generate`: the four standard-library include
directives and a blank line, then exactly one forward declaration per
function (in source order, all before any definition), a blank line, then
one full definition per function in source order, each followed by a blank
line; a zero-parameter function renders its parameter list as `void` in
both the forward declaration and the definition header. -/
theorem generate_structure_spec (p : Program) :
    (generateLines p =
      ["#include <stdio.h>", "#include <stdlib.h>", "#include <string.h>",
       "#include <stdbool.h>", ""]
      ++ p.funcs.map fwdDecl ++ [""] ++ genFuncsLines p.funcs
    ∧ (p.funcs.map fwdDecl).length = p.funcs.length
    ∧ generate p = String.intercalate "\n" (generateLines p))
    ∧ (∀ f : FuncDecl, f.params = [] →
        fwdDecl f = mapType f.return_type ++ " " ++ f.name ++ "(" ++ "void" ++ ");"
        ∧ funcHeader f = mapType f.return_type ++ " " ++ f.name ++ "(" ++ "void" ++ ") \x7b"
        ∧ (genFunction f).head? = some (funcHeader f)) := by
  refine ⟨⟨rfl, by simp, rfl⟩, ?_⟩
  intro f h
  refine ⟨?_, ?_, rfl⟩
  · simp [fwdDecl, paramsRender, h]
  · simp [funcHeader, paramsRender, h]

/-- C6 witness: a concrete zero-parameter function. -/
theorem generate_structure_spec_witness :
    fwdDecl ⟨"int", "main", [], []⟩ =
      mapType "int" ++ " " ++ "main" ++ "(" ++ "void" ++ ");"
    ∧ funcHeader ⟨"int", "main", [], []⟩ =
      mapType "int" ++ " " ++ "main" ++ "(" ++ "void" ++ ") \x7b"
    ∧ (genFunction ⟨"int", "main", [], []⟩).head? =
      some (funcHeader ⟨"int", "main", [], []⟩) :=
  (generate_structure_spec ⟨[]⟩).2 ⟨"int", "main", [], []⟩ rfl

/-- C8 counterexample: a program holding a statement node outside the
known variants is lowered with no error at all, and the node is silently
dropped: the generated module is identical to the one generated for the
same program with the node removed.  This falsifies the claim that the
generator raises on a malformed AST and never silently drops an
unrecognized node. -/
theorem malformed_silently_dropped :
    generate unknownNodeProg = generate unknownNodeProgErased
    ∧ genStmt 1 Stmt.unknownStmt = [] :=
  ⟨rfl, rfl⟩

theorem anyNone_map_some (l : List String) :
    ((l.map some).any (fun o => o.isNone)) = false := by
  induction l <;> simp_all

theorem map_pyfmt_some (l : List String) : (l.map some).map pyfmt = l := by
  induction l <;> simp_all [pyfmt]

theorem map_pyfmt_comp_some (l : List String) : l.map (pyfmt ∘ some) = l := by
  induction l <;> simp_all [pyfmt]

mutual

theorem genExprU_embed : ∀ (e : Expr), genExprU (embedExprU e) = .ok (some (genExpr e))
  | .Literal v => by cases v <;> rfl
  | .VarRef n => rfl
  | .AssignExpr n v => by
    simp [embedExprU, genExprU, genExpr, genExprU_embed v, pyfmt]
  | .BinaryExpr l op r => by
    simp [embedExprU, genExprU, genExpr, genExprU_embed l, genExprU_embed r, pyfmt]
  | .UnaryExpr op e => by
    simp [embedExprU, genExprU, genExpr, genExprU_embed e, pyfmt]
  | .FuncCall n args => by
    by_cases hn : n = "print"
    · subst hn
      match args with
      | [] => rfl
      | arg :: rest =>
        have harg := genExprU_embed arg
        cases arg with
        | Literal v => cases v <;> rfl
        | VarRef m => rfl
        | AssignExpr m v =>
          simp only [embedExprU, embedExprListU, genExprU, genExpr] at harg ⊢
          rw [harg]
          simp [pyfmt]
        | BinaryExpr l op r =>
          simp only [embedExprU, embedExprListU, genExprU, genExpr] at harg ⊢
          rw [harg]
          simp [pyfmt]
        | UnaryExpr op e =>
          simp only [embedExprU, embedExprListU, genExprU, genExpr] at harg ⊢
          rw [harg]
          simp [pyfmt]
        | FuncCall m cargs =>
          simp only [embedExprU, embedExprListU, genExprU, genExpr] at harg ⊢
          rw [harg]
          simp [pyfmt]
    · by_cases hi : n = "input"
      · subst hi
        simp only [embedExprU]
        rw [genExprU.eq_def, genExpr.eq_def]
        simp
      · have hl := genExprListU_embed args
        simp only [embedExprU]
        rw [genExprU.eq_def, genExpr.eq_def]
        simp [hn, hi, hl, pyfmt, anyNone_map_some, map_pyfmt_some, map_pyfmt_comp_some]

theorem genExprListU_embed : ∀ (es : List Expr),
    genExprListU (embedExprListU es) = .ok ((genExprList es).map some)
  | [] => rfl
  | e :: es => by
    simp [embedExprListU, genExprListU, genExprList, genExprU_embed e, genExprListU_embed es]

end

theorem varDeclLinesU_embed (ind : Nat) (ct : String) :
    ∀ (names : List (String × Option Expr)),
    varDeclLinesU ind ct (names.map (fun nm => (nm.1, nm.2.map embedExprU))) =
      .ok (names.map (fun nm =>
        match nm.2 with
        | none => indentStr ind ++ ct ++ " " ++ nm.1 ++ ";"
        | some e => indentStr ind ++ ct ++ " " ++ nm.1 ++ " = " ++ genExpr e ++ ";")) := by
  intro names
  induction names with
  | nil => rfl
  | cons nm rest ih =>
    obtain ⟨n, oe⟩ := nm
    cases oe with
    | none => simp [varDeclLinesU, ih]
    | some e => simp [varDeclLinesU, genExprU_embed e, pyfmt, ih]

theorem forAssignsU_embed : ∀ (names : List (String × Option Expr)),
    forAssignsU (names.map (fun nm => (nm.1, nm.2.map embedExprU))) =
      .ok (names.filterMap (fun nm => nm.2.map (fun e => nm.1 ++ " = " ++ genExpr e))) := by
  intro names
  induction names with
  | nil => rfl
  | cons nm rest ih =>
    obtain ⟨n, oe⟩ := nm
    cases oe with
    | none => simp [forAssignsU, ih]
    | some e => simp [forAssignsU, genExprU_embed e, pyfmt, ih]

theorem condStrU_embed (cond : Option Expr) :
    condStrU (cond.map embedExprU) =
      .ok (match cond with | some c => genExpr c | none => "1") := by
  cases cond with
  | none => rfl
  | some c => simp [condStrU, genExprU_embed c, pyfmt]

theorem postStrU_embed (post : Option Expr) :
    postStrU (post.map embedExprU) =
      .ok (match post with | some e => genExpr e | none => "") := by
  cases post with
  | none => rfl
  | some e => simp [postStrU, genExprU_embed e, pyfmt]

theorem isReturnStmtU_embed (s : Stmt) : isReturnStmtU (embedStmtU s) = isReturnStmt s := by
  cases s with
  | ForStmt i c p b => cases i <;> rfl
  | VarDecl vt names => rfl
  | ExprStmt e => rfl
  | IfStmt c tb eb => rfl
  | WhileStmt c b => rfl
  | ReturnStmt oe => rfl
  | unknownStmt => rfl

theorem embedStmtListU_eq_map (ss : List Stmt) : embedStmtListU ss = ss.map embedStmtU := by
  induction ss with
  | nil => rfl
  | cons s rest ih => simp [embedStmtListU, ih]

theorem anyReturn_embed (ss : List Stmt) :
    (embedStmtListU ss).any isReturnStmtU = ss.any isReturnStmt := by
  induction ss with
  | nil => rfl
  | cons s rest ih => simp [embedStmtListU, List.any_cons, isReturnStmtU_embed s, ih]

mutual

theorem genStmtU_embed : ∀ (ind : Nat) (s : Stmt),
    genStmtU ind (embedStmtU s) = .ok (genStmt ind s)
  | ind, .VarDecl vt names => by
    simp only [embedStmtU, genStmtU, genStmt]
    exact varDeclLinesU_embed ind (mapType vt) names
  | ind, .ExprStmt e => by
    simp [embedStmtU, genStmtU, genStmt, genExprU_embed e]
  | ind, .IfStmt c tb eb => by
    have htb := genStmtListU_embed (ind + 1) tb
    cases eb with
    | none => simp [embedStmtU, genStmtU, genStmt, genExprU_embed c, htb, pyfmt]
    | some els =>
      have hels := genStmtListU_embed (ind + 1) els
      simp [embedStmtU, genStmtU, genStmt, genExprU_embed c, htb, hels, pyfmt]
  | ind, .WhileStmt c b => by
    have hb := genStmtListU_embed (ind + 1) b
    simp [embedStmtU, genStmtU, genStmt, genExprU_embed c, hb, pyfmt]
  | ind, .ForStmt none cond post body => by
    have hb := genStmtListU_embed (ind + 1) body
    simp [embedStmtU, genStmtU, genStmt, condStrU_embed cond, postStrU_embed post, hb]
  | ind, .ForStmt (some i) cond post body => by
    have hb := genStmtListU_embed (ind + 1) body
    cases i with
    | VarDecl vt names =>
      have ha := forAssignsU_embed names
      by_cases h : (names.filterMap (fun nm => nm.2.map (fun e => nm.1 ++ " = " ++ genExpr e))) = []
      · simp [embedStmtU, genStmtU, genStmt, condStrU_embed cond, postStrU_embed post,
              hb, ha, h, String.intercalate]
      · simp [embedStmtU, genStmtU, genStmt, condStrU_embed cond, postStrU_embed post,
              hb, ha, h]
    | ExprStmt e =>
      simp [embedStmtU, genStmtU, genStmt, condStrU_embed cond, postStrU_embed post,
            hb, genExprU_embed e, pyfmt]
    | IfStmt c tb eb =>
      simp [embedStmtU, genStmtU, genStmt, condStrU_embed cond, postStrU_embed post, hb]
    | WhileStmt c b =>
      simp [embedStmtU, genStmtU, genStmt, condStrU_embed cond, postStrU_embed post, hb]
    | ForStmt i2 c2 p2 b2 =>
      cases i2 <;>
        simp [embedStmtU, genStmtU, genStmt, condStrU_embed cond, postStrU_embed post, hb]
    | ReturnStmt oe =>
      simp [embedStmtU, genStmtU, genStmt, condStrU_embed cond, postStrU_embed post, hb]
    | unknownStmt =>
      simp [embedStmtU, genStmtU, genStmt, condStrU_embed cond, postStrU_embed post, hb]
  | ind, .ReturnStmt oe => by
    cases oe with
    | none => rfl
    | some e => simp [embedStmtU, genStmtU, genStmt, genExprU_embed e, pyfmt]
  | _, .unknownStmt => rfl

theorem genStmtListU_embed : ∀ (ind : Nat) (ss : List Stmt),
    genStmtListU ind (embedStmtListU ss) = .ok (genStmtList ind ss)
  | _, [] => rfl
  | ind, s :: rest => by
    simp [embedStmtListU, genStmtListU, genStmtList, genStmtU_embed ind s,
          genStmtListU_embed ind rest]

end

theorem genFunctionU_embed (f : FuncDecl) :
    genFunctionU (embedFuncU f) = .ok (genFunction f) := by
  have hb := genStmtListU_embed 1 f.body
  have hh : funcHeaderU (embedFuncU f) = funcHeader f := rfl
  have ha := anyReturn_embed f.body
  simp only [genFunctionU, embedFuncU] at *
  rw [hb]
  simp only [genFunction, hh, ha]

theorem genFuncsLinesU_embed (fs : List FuncDecl) :
    genFuncsLinesU (fs.map embedFuncU) = .ok (genFuncsLines fs) := by
  induction fs with
  | nil => rfl
  | cons f rest ih => simp [genFuncsLinesU, genFuncsLines, genFunctionU_embed f, ih]

theorem generateU_embed (p : Program) : generateU (embedProgramU p) = .ok (generate p) := by
  have hf := genFuncsLinesU_embed p.funcs
  have hfw : fwdDeclU ∘ embedFuncU = fwdDecl := funext fun f => rfl
  simp [generateU, generateLinesU, embedProgramU, hf, generate, generateLines,
        List.map_map, hfw]

/-- C8 amended: the generator never reliably raises on a malformed AST.
On a program whose expression nodes are all known variants it
deterministically produces one textual module (first conjunct, via the
open-hierarchy generator); a statement node outside the known variants is
silently skipped, contributing no output lines and no error (second and
third conjuncts, in both models).  An expression node outside the known
variants makes `gen_expr` return Python `None` (fourth conjunct), which
raises `TypeError` only in the expression-statement path (`None + ";"`,
fifth conjunct) and in the joining of a call's argument list (sixth
conjunct); in every interpolated position it is instead silently
misrendered as the text `None` (remaining conjuncts: assignment value,
binary operand, declaration initializer, return value). -/
theorem generator_malformed_spec :
    (∀ p : Program, generateU (embedProgramU p) = .ok (generate p))
    ∧ (∀ (ind : Nat) (pre post2 : List Stmt),
        genStmtList ind (pre ++ Stmt.unknownStmt :: post2) = genStmtList ind (pre ++ post2))
    ∧ (∀ (ind : Nat) (pre post2 : List StmtU),
        genStmtListU ind (pre ++ StmtU.unknownStmt :: post2) =
          genStmtListU ind (pre ++ post2))
    ∧ genExprU ExprU.unknownExpr = .ok none
    ∧ (∀ ind : Nat, genStmtU ind (StmtU.ExprStmt ExprU.unknownExpr) = .error CGErr.typeErr)
    ∧ (∀ n : String, n ≠ "print" → n ≠ "input" →
        genExprU (ExprU.FuncCall n [ExprU.unknownExpr]) = .error CGErr.typeErr)
    ∧ (∀ n : String, genExprU (ExprU.AssignExpr n ExprU.unknownExpr) =
        .ok (some (n ++ " = " ++ "None")))
    ∧ (∀ (op r : String), genExprU (ExprU.BinaryExpr ExprU.unknownExpr op (ExprU.VarRef r)) =
        .ok (some ("(" ++ "None" ++ " " ++ op ++ " " ++ r ++ ")")))
    ∧ (∀ (ind : Nat) (vt nm : String),
        genStmtU ind (StmtU.VarDecl vt [(nm, some ExprU.unknownExpr)]) =
          .ok [indentStr ind ++ mapType vt ++ " " ++ nm ++ " = " ++ "None" ++ ";"])
    ∧ (∀ ind : Nat, genStmtU ind (StmtU.ReturnStmt (some ExprU.unknownExpr)) =
        .ok [indentStr ind ++ "return " ++ "None" ++ ";"]) := by
  refine ⟨generateU_embed, ?_, ?_, rfl, fun ind => rfl, ?_, fun n => rfl, fun op r => rfl,
          ?_, fun ind => rfl⟩
  · intro ind pre post2
    induction pre with
    | nil => simp [genStmtList, genStmt]
    | cons s rest ih => simp [genStmtList, ih]
  · intro ind pre post2
    induction pre with
    | nil =>
      cases h : genStmtListU ind post2 <;> simp [genStmtListU, genStmtU, h]
    | cons s rest ih =>
      cases h : genStmtU ind s <;> simp [genStmtListU, h, ih]
  · intro n hp hi
    simp [genExprU, genExprListU, hp, hi]
  · intro ind vt nm
    simp [genStmtU, varDeclLinesU, genExprU, pyfmt]

/-- C8 witness: the hypothesis-bearing conjunct instantiated at a call to
the plain function name `f` with an unrecognized argument node. -/
theorem generator_malformed_spec_witness :
    genExprU (ExprU.FuncCall "f" [ExprU.unknownExpr]) = .error CGErr.typeErr :=
  generator_malformed_spec.2.2.2.2.2.1 "f" (by decide) (by decide)

end MyLang
